import Mathlib

/-!
Verification of the whatsup_agents backend core: the mention router
(`services/router.py`), the read-only SQL guard (`services/db_tools.py`),
the provider factory (`services/llm.py`), the invocation loop
(`services/invoker.py`) and the task executor (`lqueue.py`) are embedded
as executable Lean functions, and the spec's claims about them are settled
as theorems.  Text is modelled as `List Char`/`String`; the relevant
fragment of Python's regular-expression behaviour (the patterns
`\[@\S+?:[\s\S]*?\]`, `\[@(\S+?):\s*([\s\S]*?)\]` and
`^@(\S+)\s+([\s\S]*)$` with leftmost-match, lazy/greedy semantics)
is implemented directly.
-/

namespace WhatsupAgents

/-- Python whitespace (the ASCII fragment of `\s` / `str.strip()`). -/
def pySpace (c : Char) : Bool :=
  c = ' ' || c = '\t' || c = '\n' || c = '\r' || c = Char.ofNat 11 || c = Char.ofNat 12

/-- Python `str.strip()`: drop leading and trailing whitespace. -/
def pyStrip (s : List Char) : List Char :=
  ((s.dropWhile pySpace).reverse.dropWhile pySpace).reverse

/-- `a` begins with `pat` (Python `str.startswith`). -/
def leadsWith : List Char → List Char → Bool
  | [], _ => true
  | _ :: _, [] => false
  | p :: ps, c :: cs => p = c && leadsWith ps cs

/-- `needle` occurs contiguously anywhere in the haystack (Python `in`). -/
def hasSub (needle : List Char) : List Char → Bool
  | [] => needle.isEmpty
  | c :: cs => leadsWith needle (c :: cs) || hasSub needle cs

/-- Python `str.split(',')`: split on every comma, keeping empty pieces. -/
def splitOnComma : List Char → List (List Char)
  | [] => [[]]
  | c :: cs =>
    if c = ',' then [] :: splitOnComma cs
    else
      match splitOnComma cs with
      | [] => [[c]]
      | p :: ps => (c :: p) :: ps

/-- Worker for Python `str.split()` (no argument): split on whitespace
runs, discarding empties; `acc` holds the current word reversed. -/
def wordsAux : List Char → List Char → List (List Char)
  | [], acc => if acc.isEmpty then [] else [acc.reverse]
  | c :: cs, acc =>
    if pySpace c then
      (if acc.isEmpty then wordsAux cs [] else acc.reverse :: wordsAux cs [])
    else wordsAux cs (c :: acc)

/-- Python `str.split()` with no argument. -/
def splitWs (s : List Char) : List (List Char) := wordsAux s []

/-!
The delegation-tag pattern `\[@\S+?:[\s\S]*?\]` of `services/router.py`.
A match at a position is: literal `[@`, then the shortest non-empty run
of non-whitespace characters followed by `:` (lazy `\S+?`), then the
shortest run of arbitrary characters followed by `]` (lazy `[\s\S]*?`).
-/

/-- Split at the first `:`, requiring every character before it to be
non-whitespace; returns (chars before the colon, chars after it). -/
def colonSplit : List Char → Option (List Char × List Char)
  | [] => none
  | c :: cs =>
    if c = ':' then some ([], cs)
    else if pySpace c then none
    else (colonSplit cs).map (fun pr => (c :: pr.1, pr.2))

/-- Lazy `\S+?:`: the shortest non-empty all-non-whitespace prefix that is
followed by `:`; returns (that prefix, the text after the colon). -/
def findColon : List Char → Option (List Char × List Char)
  | [] => none
  | c :: cs =>
    if pySpace c then none
    else (colonSplit cs).map (fun pr => (c :: pr.1, pr.2))

/-- Lazy `[\s\S]*?\]`: split at the first `]`; returns (text before it,
text after it). -/
def findBracket : List Char → Option (List Char × List Char)
  | [] => none
  | c :: cs =>
    if c = ']' then some ([], cs)
    else (findBracket cs).map (fun pr => (c :: pr.1, pr.2))

/-- Attempt the tag pattern at the head of the string: on success returns
(id part, directed text, rest of the string after the match). -/
def matchTag : List Char → Option (List Char × List Char × List Char)
  | '[' :: '@' :: t =>
    (findColon t).bind fun pr =>
      (findBracket pr.2).map fun qr => (pr.1, qr.1, qr.2)
  | _ => none

theorem colonSplit_shorter :
    ∀ s p r, colonSplit s = some (p, r) → r.length < s.length := by
  intro s
  induction s with
  | nil => intro p r h; simp [colonSplit] at h
  | cons c cs ih =>
    intro p r h
    simp only [colonSplit] at h
    split at h
    · simp only [Option.some.injEq, Prod.mk.injEq] at h
      simp [← h.2]
    · split at h
      · exact absurd h (by simp)
      · rcases Option.map_eq_some'.mp h with ⟨⟨p2, r2⟩, hrec, heq⟩
        have := ih p2 r2 hrec
        simp only [Prod.mk.injEq] at heq
        simp only [List.length_cons, ← heq.2]
        omega

theorem findColon_shorter :
    ∀ s p r, findColon s = some (p, r) → r.length < s.length := by
  intro s p r h
  match s with
  | [] => simp [findColon] at h
  | c :: cs =>
    simp only [findColon] at h
    split at h
    · exact absurd h (by simp)
    · rcases Option.map_eq_some'.mp h with ⟨⟨p2, r2⟩, hrec, heq⟩
      have := colonSplit_shorter cs p2 r2 hrec
      simp only [Prod.mk.injEq] at heq
      simp only [List.length_cons, ← heq.2]
      omega

theorem findBracket_shorter :
    ∀ s p r, findBracket s = some (p, r) → r.length < s.length := by
  intro s
  induction s with
  | nil => intro p r h; simp [findBracket] at h
  | cons c cs ih =>
    intro p r h
    simp only [findBracket] at h
    split at h
    · simp only [Option.some.injEq, Prod.mk.injEq] at h
      simp [← h.2]
    · rcases Option.map_eq_some'.mp h with ⟨⟨p2, r2⟩, hrec, heq⟩
      have := ih p2 r2 hrec
      simp only [Prod.mk.injEq] at heq
      simp only [List.length_cons, ← heq.2]
      omega

theorem matchTag_shorter :
    ∀ s i m r, matchTag s = some (i, m, r) → r.length < s.length := by
  intro s i m r h
  unfold matchTag at h
  split at h
  · rename_i t
    rcases Option.bind_eq_some.mp h with ⟨⟨ids, afterColon⟩, hc, h2⟩
    rcases Option.map_eq_some'.mp h2 with ⟨⟨content, rest⟩, hb, heq⟩
    have l1 := findColon_shorter t ids afterColon hc
    have l2 := findBracket_shorter afterColon content rest hb
    simp only [Prod.mk.injEq] at heq
    simp only [List.length_cons, ← heq.2.2]
    omega
  · exact absurd h (by simp)

/-!
`re.sub(tag_pattern, '', s)` and `re.finditer(tag_pattern, s)`: scan left
to right; at each position try the pattern; on failure advance one
character, on success continue right after the match (non-overlapping
leftmost matches).  The recursion consumes at least one character per
step, so fuel `s.length` is always sufficient; the fuel-0 case is
unreachable for `stripCore s`/`tagMatches s` below.
-/

/-- Fuelled worker for `re.sub(tag_pattern, '', s)`. -/
def stripCoreF : Nat → List Char → List Char
  | 0, s => s
  | _ + 1, [] => []
  | f + 1, c :: cs =>
    match matchTag (c :: cs) with
    | some (_, _, rest) => stripCoreF f rest
    | none => c :: stripCoreF f cs

/-- `re.sub(tag_pattern, '', s)`: remove every (leftmost, non-overlapping)
match of the delegation-tag pattern. -/
def stripCore (s : List Char) : List Char := stripCoreF s.length s

/-- Fuelled worker for `re.finditer(tag_pattern, s)`. -/
def tagMatchesF : Nat → List Char → List (List Char × List Char)
  | 0, _ => []
  | _ + 1, [] => []
  | f + 1, c :: cs =>
    match matchTag (c :: cs) with
    | some (ids, content, rest) => (ids, content) :: tagMatchesF f rest
    | none => tagMatchesF f cs

/-- All (leftmost, non-overlapping) matches of the tag pattern, as
(id part, directed text) pairs in order of appearance. -/
def tagMatches (s : List Char) : List (List Char × List Char) := tagMatchesF s.length s

/-- The tag pattern matches somewhere in `s`. -/
def hasMatch : List Char → Bool
  | [] => false
  | c :: cs => (matchTag (c :: cs)).isSome || hasMatch cs

/-- `strip_teammate_tags` (`services/router.py`): remove all
`[@teammate: ...]` tags, then trim. -/
def strip_teammate_tags (response : List Char) : List Char :=
  pyStrip (stripCore response)

/-- The separator inserted between the shared context and a tag's
directed text (`services/router.py`, `extract_teammate_mentions`). -/
def directedSep : List Char := ("\n\n---\nDirected to you:\n" : String).data

/-- The full delegated message for one tag: shared context plus directed
text, or just the directed text if the shared context is empty
(Python truthiness of `shared_context`). -/
def fullMsgOf (shared direct : List Char) : List Char :=
  if shared = [] then direct else shared ++ directedSep ++ direct

/-- The inner loop of `extract_teammate_mentions` over the id pieces of
one tag: emit `(id, full)` for each id that is non-empty, unseen, not the
acting agent, and in the team list; thread the `seen` set through. -/
def emitPieces (current : List Char) (team : List (List Char)) (full : List Char) :
    List (List Char) → List (List Char) → List (List Char × List Char) × List (List Char)
  | [], seen => ([], seen)
  | x :: xs, seen =>
    if x ≠ [] ∧ x ∉ seen ∧ x ≠ current ∧ x ∈ team then
      let pr := emitPieces current team full xs (x :: seen)
      ((x, full) :: pr.1, pr.2)
    else emitPieces current team full xs seen

/-- The outer loop of `extract_teammate_mentions` over the tag matches. -/
def extractGo (current : List Char) (team : List (List Char)) (shared : List Char) :
    List (List Char × List Char) → List (List Char) → List (List Char × List Char)
  | [], _ => []
  | (idsRaw, content) :: ms, seen =>
    let direct := pyStrip content
    let full := fullMsgOf shared direct
    let pieces := (splitOnComma (idsRaw.map Char.toLower)).map pyStrip
    let pr := emitPieces current team full pieces seen
    pr.1 ++ extractGo current team shared ms pr.2

/-- `extract_teammate_mentions` (`services/router.py`): extract
`[@id1,id2,...: message]` delegation directives from an agent reply. -/
def extract_teammate_mentions (response current : List Char)
    (team : List (List Char)) : List (List Char × List Char) :=
  let shared := pyStrip (stripCore response)
  extractGo current team shared (tagMatches response) []

/-- The stream of candidate ids of a reply, in scan order: for each tag
match, the lower-cased id part split on commas, each piece trimmed. -/
def candidateIds (response : List Char) : List (List Char) :=
  (tagMatches response).flatMap fun pr => (splitOnComma (pr.1.map Char.toLower)).map pyStrip

/-- First-seen filter over a candidate-id stream: keep an id if it is
non-empty, unseen, not the acting agent and in the team list; later
duplicates are dropped. -/
def firstSeenFilter (current : List Char) (team : List (List Char)) :
    List (List Char) → List (List Char) → List (List Char)
  | [], _ => []
  | x :: xs, seen =>
    if x ≠ [] ∧ x ∉ seen ∧ x ≠ current ∧ x ∈ team then
      x :: firstSeenFilter current team xs (x :: seen)
    else firstSeenFilter current team xs seen

example : stripCore ("a [@bob: hi] b" : String).data = ("a  b" : String).data := by decide
example : strip_teammate_tags ("a [@bob: hi] b" : String).data = ("a  b" : String).data := by
  decide
example :
    stripCore ("[[@a: b]@x: y]" : String).data = ("[@x: y]" : String).data := by decide
example :
    tagMatches ("x [@bob,carol: do it] y [@bob: again]" : String).data =
      [(("bob,carol" : String).data, (" do it" : String).data),
       (("bob" : String).data, (" again" : String).data)] := by decide
example :
    extract_teammate_mentions ("Shared note.\n[@bob: please review]" : String).data
      ("alice" : String).data [("bob" : String).data, ("carol" : String).data] =
      [(("bob" : String).data,
        ("Shared note.\n\n---\nDirected to you:\nplease review" : String).data)] := by decide
example :
    extract_teammate_mentions ("[@alice: hi] hello" : String).data
      ("alice" : String).data [("alice" : String).data, ("bob" : String).data] = [] := by
  decide

/-!
The read-only SQL guard of `services/db_tools.py` (`_run_query`):
normalize by `sql.strip().upper()`; reject unless the result starts with
`SELECT`; then reject if any whitespace-delimited word of the normalized
statement (`normalized.split()`) is one of the blocked mutation keywords.
The actual engine call is out of scope; the guard's decision is modelled
as an outcome value.
-/

/-- Python `str.upper()` (ASCII fragment). -/
def pyUpper (s : List Char) : List Char := s.map Char.toUpper

/-- The blocked mutation keywords of `_run_query`. -/
def blockedKeywords : List (List Char) :=
  (["INSERT", "UPDATE", "DELETE", "DROP", "ALTER", "CREATE", "TRUNCATE", "REPLACE"]
    : List String).map String.data

/-- Outcome of `_run_query` on a statement: rejected before execution
(with the reason), or handed to the database engine. -/
inductive QueryOutcome
  | rejectedNotSelect
  | rejectedKeyword (kws : List (List Char))
  | executed
deriving DecidableEq

/-- The guard of `_run_query` (`services/db_tools.py`): the two checks
performed before any SQL is executed, in source order. -/
def run_query_guard (sql : List Char) : QueryOutcome :=
  let normalized := pyUpper (pyStrip sql)
  if ¬ leadsWith ("SELECT" : String).data normalized then .rejectedNotSelect
  else
    let found := (splitWs normalized).filter (· ∈ blockedKeywords)
    if found ≠ [] then .rejectedKeyword found else .executed

/-- The claim's reading of the keyword scan: one of the blocked keywords
occurs anywhere in the case-normalized statement as a substring. -/
def containsMutatingKeyword (sql : List Char) : Bool :=
  blockedKeywords.any fun k => hasSub k (pyUpper sql)

example : run_query_guard ("  select * from t  " : String).data = .executed := by decide
example : run_query_guard ("DROP TABLE x" : String).data = .rejectedNotSelect := by decide
example :
    run_query_guard ("select 1 drop" : String).data =
      .rejectedKeyword [("DROP" : String).data] := by decide
example : run_query_guard ("SELECT;DROP TABLE x" : String).data = .executed := by decide

/-!
Directory records (`models.py`) and the mention router's
`resolve_agent_for_message` (`services/router.py`).  Database queries are
modelled over in-memory lists: `scalar_one_or_none` on a primary-key
filter is `List.find?`, `order_by(Agent.id) ... first()` is the
lexicographically least id (SQLite BINARY collation agrees with
code-point order on these ASCII ids).
-/

/-- An `Agent` row (`models.py`): the fields the core reads. -/
structure AgentRec where
  id : String
  name : String
  provider : Option String
  model : String
  soul : String
  team_id : Option String
deriving DecidableEq

/-- A `Team` row (`models.py`): the fields the core reads. -/
structure TeamRec where
  id : String
  leader_agent_id : Option String
deriving DecidableEq

/-- Python truthiness of an optional string: `None` and `""` are falsy. -/
def strTruthy : Option String → Bool
  | none => false
  | some s => s ≠ ""

/-- Match `^@(\S+)\s+([\s\S]*)$` at the whole (stripped) message: an `@`,
a maximal non-empty run of non-whitespace (greedy `\S+`), at least one
whitespace character, then the remainder after the maximal whitespace run
(greedy `\s+`); returns (token, remainder). -/
def matchAtToken (s : List Char) : Option (List Char × List Char) :=
  match s with
  | '@' :: rest =>
    let tok := rest.takeWhile fun c => ¬ pySpace c
    let after := rest.dropWhile fun c => ¬ pySpace c
    if tok = [] then none
    else
      match after with
      | [] => none
      | _ :: _ => some (tok, after.dropWhile pySpace)
  | _ => none

/-- Lexicographic (code-point) strict order on char lists: the order of
`ORDER BY` under SQLite's BINARY collation on ASCII ids. -/
def lexLt : List Char → List Char → Bool
  | [], [] => false
  | [], _ :: _ => true
  | _ :: _, [] => false
  | a :: as, b :: bs =>
    if a.toNat < b.toNat then true
    else if b.toNat < a.toNat then false
    else lexLt as bs

/-- `ORDER BY Agent.id ... first()`: the lexicographically least agent id. -/
def minAgentId (agents : List AgentRec) : Option String :=
  (agents.map AgentRec.id).foldl
    (fun acc s =>
      match acc with
      | none => some s
      | some t => some (if lexLt s.data t.data then s else t))
    none

/-- Lower-case a string (Python `str.lower()`, ASCII fragment). -/
def lowerStr (s : String) : String := String.mk (s.data.map Char.toLower)

/-- `resolve_agent_for_message` (`services/router.py`): parse an
`@agent_id`/`@team_id`/`@name` prefix; fall back to the default agent
(least id) with the full trimmed message, or no target if no agents. -/
def resolve_agent_for_message (raw : String) (agents : List AgentRec)
    (teams : List TeamRec) : Option String × String :=
  let strippedRaw := String.mk (pyStrip raw.data)
  let viaMatch : Option (Option String × String) :=
    match matchAtToken (pyStrip raw.data) with
    | none => none
    | some (tok, msgChars) =>
      let candidate := String.mk (tok.map Char.toLower)
      let message := String.mk msgChars
      match agents.find? (fun a => a.id = candidate) with
      | some a => some (some a.id, message)
      | none =>
        match teams.find? (fun t => t.id = candidate) with
        | some t =>
          if strTruthy t.leader_agent_id then
            some (some (t.leader_agent_id.getD ""), message)
          else
            match agents.find? (fun a => lowerStr a.name = candidate) with
            | some a => some (some a.id, message)
            | none => none
        | none =>
          match agents.find? (fun a => lowerStr a.name = candidate) with
          | some a => some (some a.id, message)
          | none => none
  match viaMatch with
  | some out => out
  | none =>
    match minAgentId agents with
    | some d => (some d, strippedRaw)
    | none => (none, strippedRaw)

example :
    resolve_agent_for_message "@coder fix the bug"
      [⟨"coder", "Coder", some "anthropic", "m", "", none⟩] [] =
      (some "coder", "fix the bug") := by decide
example :
    resolve_agent_for_message "no prefix here"
      [⟨"alice", "Alice", none, "m", "", none⟩, ⟨"bob", "Bob", none, "m", "", none⟩] [] =
      (some "alice", "no prefix here") := by decide
example :
    resolve_agent_for_message "@ghost hi"
      [⟨"alice", "Alice", none, "m", "", none⟩, ⟨"bob", "Bob", none, "m", "", none⟩] [] =
      (some "alice", "@ghost hi") := by decide
example : resolve_agent_for_message "hello" [] [⟨"t", none⟩] = (none, "hello") := by decide

/-!
Conversations and messages (`models.py`, `services/invoker.py`).  The
database session is an in-memory store; row ids are allocated from a
counter (the uuid generator's only relevant property is freshness).
-/

/-- A `Conversation` row: the fields the core reads and writes. -/
structure ConvRec where
  id : Nat
  agent_id : String
  sender_id : String
  sender_name : Option String
  channel : String
deriving DecidableEq

/-- The conversations table plus the id allocator. -/
structure ConvStore where
  convs : List ConvRec
  nextId : Nat
deriving DecidableEq

/-- A `Message` row: the fields the core writes. -/
structure MessageRec where
  conversation_id : Nat
  role : String
  content : String
deriving DecidableEq

/-- The database state the invocation loop touches. -/
structure DBState where
  store : ConvStore
  messages : List MessageRec
deriving DecidableEq

/-- The conversation key of `TaskQueue._process` (`lqueue.py`):
`item.get("group_id") or item["sender_id"]` — the group id when truthy,
the sender id otherwise. -/
def convKey (groupId : Option String) (senderId : String) : String :=
  match groupId with
  | some g => if g = "" then senderId else g
  | none => senderId

/-- `get_or_create_conversation` (`services/invoker.py`): find the
conversation for (agent, sender, channel); create it if absent; backfill
the sender name when the stored one is falsy and the incoming one truthy. -/
def get_or_create_conversation (st : ConvStore) (agentId senderId : String)
    (senderName : Option String) (channel : String) : ConvRec × ConvStore :=
  match st.convs.find? (fun c =>
      c.agent_id = agentId ∧ c.sender_id = senderId ∧ c.channel = channel) with
  | some c =>
    if strTruthy senderName ∧ ¬ strTruthy c.sender_name then
      let c' : ConvRec := { c with sender_name := senderName }
      (c', { st with convs := st.convs.map fun d => if d.id = c.id then c' else d })
    else (c, st)
  | none =>
    let c : ConvRec := ⟨st.nextId, agentId, senderId, senderName, channel⟩
    (c, { convs := st.convs ++ [c], nextId := st.nextId + 1 })

/-!
The provider backend adapter (`services/llm.py`) and the invocation loop
(`services/invoker.py`).  The three vendor SDK variants perform network
calls, so a provider's behaviour — `complete` and the two history-append
re-encoders — is a parameter; messages are an opaque type `μ` built from
(role, content) pairs by `mk`.  `complete` may fail (`Except`), modelling
a raised provider exception.
-/

/-- A normalized tool invocation returned by a provider. -/
structure ToolCallRec where
  call_id : String
  name : String
  arguments : String
deriving DecidableEq

/-- A normalized completion result: answer text plus tool invocations. -/
structure CompletionResult where
  text : String
  tool_calls : List ToolCallRec
deriving DecidableEq

/-- The behaviour of one provider backend variant. -/
structure ProviderBehavior (μ : Type) where
  complete : List μ → Except String CompletionResult
  appendAssistant : List μ → CompletionResult → List μ
  appendToolResults : List μ → List ToolCallRec → List String → List μ

/-- The recognized provider keys of `get_provider` (`services/llm.py`). -/
inductive ProviderKind
  | anthropic
  | openai
  | google
deriving DecidableEq

/-- `get_provider` (`services/llm.py`): select the backend variant by
name; an unrecognized name raises `ValueError` (modelled as `.error`).
The memoizing `_providers` cache only caches the three recognized
variants, so it does not change the selection outcome. -/
def get_provider (provider_name : String) : Except String ProviderKind :=
  if provider_name = "anthropic" then .ok .anthropic
  else if provider_name = "openai" then .ok .openai
  else if provider_name = "google" then .ok .google
  else .error ("Unknown provider: '" ++ provider_name ++
    "'. Use anthropic, openai, or google.")

/-- `MAX_ROUNDS` of `invoke_agent` (`services/invoker.py`). -/
def MAX_ROUNDS : Nat := 10

/-- The sentinel reply when the round limit is exhausted. -/
def maxRoundsReply : String := "[Max tool rounds reached without a final answer]"

/-- The provider-agnostic tool-use loop of `invoke_agent`
(`services/invoker.py`): up to `fuel` rounds; a round with no tool
invocations ends the loop with that round's text; otherwise append the
assistant turn, execute every tool call, append the results, continue.
Returns the final text and the number of provider calls made. -/
def toolLoop {μ : Type} (p : ProviderBehavior μ) (execTool : ToolCallRec → String) :
    Nat → List μ → Except String (String × Nat)
  | 0, _ => .ok (maxRoundsReply, 0)
  | fuel + 1, msgs =>
    match p.complete msgs with
    | .error e => .error e
    | .ok r =>
      if r.tool_calls.isEmpty then .ok (r.text, 1)
      else
        let msgs1 := p.appendAssistant msgs r
        let results := r.tool_calls.map execTool
        let msgs2 := p.appendToolResults msgs1 r.tool_calls results
        (toolLoop p execTool fuel msgs2).map fun pr => (pr.1, pr.2 + 1)

/-- `MAX_HISTORY` of `services/invoker.py`. -/
def MAX_HISTORY : Nat := 50

/-- The default system prompt (`DEFAULT_SOUL`, `services/invoker.py`). -/
def DEFAULT_SOUL : String :=
  "You are a helpful AI assistant. You can be given a soul (personality, expertise, and worldview)\nby the user who configured you. Until then, be helpful, concise, and clear.\n"

/-- `agent.soul.strip() if agent.soul and agent.soul.strip() else DEFAULT_SOUL`. -/
def systemPromptOf (a : AgentRec) : String :=
  let stripped := String.mk (pyStrip a.soul.data)
  if a.soul ≠ "" ∧ stripped ≠ "" then stripped else DEFAULT_SOUL

/-- `agent.provider or "anthropic"`: a falsy provider column falls back
to the `anthropic` column default before selection. -/
def providerNameOf (a : AgentRec) : String :=
  match a.provider with
  | some p => if p = "" then "anthropic" else p
  | none => "anthropic"

/-- The history window: the most recent `MAX_HISTORY` messages of the
conversation, oldest first (`order_by(created_at.desc()).limit(...)`,
then reversed; the store is append-only, so list order is creation
order). -/
def historyOf (msgs : List MessageRec) (convId : Nat) : List MessageRec :=
  let all := msgs.filter fun m => m.conversation_id = convId
  (all.reverse.take MAX_HISTORY).reverse

/-- The normalized message list handed to the first provider call:
history as (role, content) pairs, then the user turn with the
resource-enriched message text. -/
def invokeInitialMsgs {μ : Type} (mk : String → String → μ) (db : DBState)
    (convId : Nat) (enriched : String) : List μ :=
  ((historyOf db.messages convId).map fun m => mk m.role m.content) ++ [mk "user" enriched]

/-- `invoke_agent` (`services/invoker.py`).  Steps modelled: find or
create the conversation, build the history window, enrich the user
message with rendered resource context (`enrich` stands for the
repository-injection step, which never raises: per-resource failures
degrade to inline error blocks), select the provider — an unrecognized
key returns the `[Configuration error: ...]` text *before* any message is
persisted — run the tool-use loop, and on a final reply persist the
original (non-enriched) user message and the reply.  A provider exception
propagates (`.error`) with no message persisted. -/
def invoke_agent {μ : Type} (mk : String → String → μ) (p : ProviderBehavior μ)
    (execTool : ToolCallRec → String) (enrich : String → String) (db : DBState)
    (agent : AgentRec) (senderId : String) (senderName : Option String)
    (message : String) (channel : String) : Except (String × DBState) (String × DBState) :=
  let pr := get_or_create_conversation db.store agent.id senderId senderName channel
  let conv := pr.1
  let db1 : DBState := { db with store := pr.2 }
  let enriched := enrich message
  let msgs : List μ := invokeInitialMsgs mk db1 conv.id enriched
  match get_provider (providerNameOf agent) with
  | .error e => .ok ("[Configuration error: " ++ e ++ "]", db1)
  | .ok _ =>
    match toolLoop p execTool MAX_ROUNDS msgs with
    | .error e => .error (e, db1)
    | .ok (finalText, _) =>
      .ok (finalText,
        { db1 with
          messages := db1.messages ++
            [⟨conv.id, "user", message⟩, ⟨conv.id, "assistant", finalText⟩] })

/-!
The task executor (`lqueue.py`).  `_process` is modelled per dequeued
item as a pure function of the directory, the database state, and the
provider behaviour, returning the ordered list of committed task-record
snapshots (one entry per `db.commit()` of the task row), the delegated
sub-task enqueues in order, and the reply handed to the delivery
transport.  Failures are modelled as arising from the provider call
inside `invoke_agent` — the two awaits that leave the process (the
notifier swallows its own per-client errors, `_send_reply` catches all
exceptions, and mention extraction is pure).
-/

/-- A committed snapshot of a `Task` row's lifecycle fields. -/
structure TaskRec where
  status : String
  result : Option String
  error : Option String
deriving DecidableEq

/-- A dequeued work item (the dict built by `TaskQueue.enqueue`). -/
structure TaskItem where
  task_id : String
  agent_id : String
  sender_id : String
  sender_name : Option String
  message : String
  channel : String
  parent_task_id : Option String
  group_id : Option String
deriving DecidableEq

/-- The arguments of a delegated `task_queue.enqueue` call. -/
structure EnqueueArgs where
  agent_id : String
  sender_id : String
  sender_name : Option String
  message : String
  channel : String
  parent_task_id : Option String
  group_id : Option String
deriving DecidableEq

/-- `_get_team_agent_ids` (`lqueue.py`): the ids of all agents sharing
the acting agent's team, or `[]` when the agent is missing or has a falsy
team id. -/
def getTeamAgentIds (agents : List AgentRec) (agentId : String) : List String :=
  match agents.find? (fun a => a.id = agentId) with
  | none => []
  | some a =>
    match a.team_id with
    | none => []
    | some tid =>
      if tid = "" then []
      else (agents.filter fun b => b.team_id = some tid).map AgentRec.id

/-- `extract_teammate_mentions` over `String` values, as `lqueue.py`
calls it. -/
def extractMentionsS (reply current : String) (team : List String) :
    List (String × String) :=
  (extract_teammate_mentions reply.data current.data (team.map String.data)).map
    fun pr => (String.mk pr.1, String.mk pr.2)

/-- `strip_teammate_tags` over `String` values. -/
def stripTagsS (s : String) : String := String.mk (strip_teammate_tags s.data)

/-- The reply text stored as the task result (`lqueue.py` lines 100–102):
stripped only when at least one mention was extracted. -/
def cleanReplyOf (reply agentId : String) (teamIds : List String) : String :=
  if extractMentionsS reply agentId teamIds ≠ [] then stripTagsS reply else reply

/-- The outcome of `TaskQueue._process` for one dequeued item. -/
structure ProcessOut where
  trace : List TaskRec
  db : DBState
  delegated : List EnqueueArgs
  delivered : Option (String × String)

/-- `TaskQueue._process` (`lqueue.py`): materialize the task row with
status `processing` and commit; fail if the agent is absent; invoke the
agent on the conversation key (group id when truthy, else sender id);
on success extract teammate mentions, strip tags when any mention was
found, commit `done` with the result, enqueue one sub-task per mention,
and for top-level tasks hand the reply to the delivery transport
(targeting the group when truthy, else the sender); on an invocation
exception commit `failed` with the error text. -/
def processTask {μ : Type} (mk : String → String → μ) (p : ProviderBehavior μ)
    (execTool : ToolCallRec → String) (enrich : String → String)
    (agents : List AgentRec) (db : DBState) (item : TaskItem) : ProcessOut :=
  let t0 : TaskRec := ⟨"processing", none, none⟩
  match agents.find? (fun a => a.id = item.agent_id) with
  | none =>
    ⟨[t0, ⟨"failed", none, some ("Agent '" ++ item.agent_id ++ "' not found")⟩],
      db, [], none⟩
  | some agent =>
    let ckey := convKey item.group_id item.sender_id
    match invoke_agent mk p execTool enrich db agent ckey item.sender_name
        item.message item.channel with
    | .error (e, db') => ⟨[t0, ⟨"failed", none, some e⟩], db', [], none⟩
    | .ok (reply, db') =>
      let teamIds := getTeamAgentIds agents item.agent_id
      let mentions := extractMentionsS reply item.agent_id teamIds
      let cleanReply := if mentions ≠ [] then stripTagsS reply else reply
      let delegated := mentions.map fun m =>
        ⟨m.1, item.sender_id, item.sender_name, m.2, item.channel,
          some item.task_id, item.group_id⟩
      let delivered :=
        if strTruthy item.parent_task_id then none
        else some (convKey item.group_id item.sender_id, cleanReply)
      ⟨[t0, ⟨"done", some cleanReply, none⟩], db', delegated, delivered⟩

/-!  Concrete fixtures used to instantiate theorems on closed inputs. -/

/-- Trivial opaque message constructor (`μ := Unit`). -/
def unitMk (_ _ : String) : Unit := ()

/-- A provider whose every completion call returns `r`. -/
def constProvider (r : CompletionResult) : ProviderBehavior Unit :=
  ⟨fun _ => .ok r, fun m _ => m, fun m _ _ => m⟩

/-- A provider whose every completion call raises `e`. -/
def failProvider (e : String) : ProviderBehavior Unit :=
  ⟨fun _ => .error e, fun m _ => m, fun m _ _ => m⟩

/-- A trivial tool executor. -/
def noTool (_ : ToolCallRec) : String := ""

/-- An empty database state. -/
def emptyDB : DBState := ⟨⟨[], 0⟩, []⟩

/-!  ## C2 — the read-only SQL guard  -/

/-- C2 counterexample: `"SELECT;DROP TABLE x"` contains the mutating
keyword `DROP` (as a substring of the normalized statement), yet the
guard hands it to the engine: the keyword scan only sees
whitespace-delimited words, and `SELECT;DROP` is a single word, so the
claim "execution is refused whenever the statement contains any of the
mutating keywords anywhere" is false. -/
theorem c2_substring_keyword_executed :
    run_query_guard ("SELECT;DROP TABLE x" : String).data = .executed ∧
    containsMutatingKeyword ("SELECT;DROP TABLE x" : String).data = true := by
  constructor <;> decide

/-- C2 (amended): execution is refused whenever the statement, after
trimming and upper-casing, does not begin with `SELECT`, or contains one
of the blocked mutating keywords as a whitespace-delimited word; in
particular every casing/leading-whitespace variant of `DROP TABLE x` is
rejected before execution. -/
theorem c2_guard_rejects (sql : List Char) :
    (¬ leadsWith ("SELECT" : String).data (pyUpper (pyStrip sql)) = true →
      run_query_guard sql = .rejectedNotSelect) ∧
    ((splitWs (pyUpper (pyStrip sql))).any (· ∈ blockedKeywords) = true →
      run_query_guard sql ≠ .executed) ∧
    (pyUpper (pyStrip sql) = ("DROP TABLE X" : String).data →
      run_query_guard sql = .rejectedNotSelect) := by
  refine ⟨fun h => ?_, fun h => ?_, fun h => ?_⟩
  · simp only [run_query_guard, if_pos h]
  · simp only [run_query_guard]
    split
    · simp
    · rcases List.any_eq_true.mp h with ⟨w, hw, hwb⟩
      have hne : (splitWs (pyUpper (pyStrip sql))).filter (· ∈ blockedKeywords) ≠ [] := by
        intro hnil
        have := List.filter_eq_nil_iff.mp hnil w hw
        exact this hwb
      simp only [ne_eq, hne, not_false_eq_true, if_true]
      simp
  · simp only [run_query_guard, h]
    decide

/-- C2 witness: the amended guard theorem applied to `"drop table x"`
(not a SELECT), `"select 1 drop"` (blocked word), and the mixed-case
padded `"  dRoP TaBle x "`. -/
theorem c2_guard_rejects_witness :
    run_query_guard ("drop table x" : String).data = .rejectedNotSelect ∧
    run_query_guard ("select 1 drop" : String).data ≠ .executed ∧
    run_query_guard ("  dRoP TaBle x " : String).data = .rejectedNotSelect :=
  ⟨(c2_guard_rejects _).1 (by decide),
   (c2_guard_rejects _).2.1 (by decide),
   (c2_guard_rejects _).2.2 (by decide)⟩

/-!  ## C9 — `resolve_agent_for_message`  -/

/-- C9: (a) `@coder fix the bug` with an agent of id `coder` resolves to
(`coder`, `fix the bug`); (b) `no prefix here` with agents
`[alice, bob]` resolves to (`alice`, `no prefix here`); (c) a leading
`@token` matching no agent id, team id or lower-cased agent name falls
back to the least agent id with the full trimmed message unmodified;
(d) with no agents (and, per the foreign-key constraint on
`leader_agent_id`, no team leader either) no target is returned. -/
theorem c9_resolve_target :
    (∀ (agents : List AgentRec) (teams : List TeamRec),
      (∃ a ∈ agents, a.id = "coder") →
      resolve_agent_for_message "@coder fix the bug" agents teams =
        (some "coder", "fix the bug")) ∧
    (∀ (a b : AgentRec) (teams : List TeamRec), a.id = "alice" → b.id = "bob" →
      resolve_agent_for_message "no prefix here" [a, b] teams =
        (some "alice", "no prefix here")) ∧
    (∀ (raw : String) (agents : List AgentRec) (teams : List TeamRec)
      (tok msg : List Char),
      matchAtToken (pyStrip raw.data) = some (tok, msg) →
      agents.find? (fun a => a.id = String.mk (tok.map Char.toLower)) = none →
      teams.find? (fun t => t.id = String.mk (tok.map Char.toLower)) = none →
      agents.find? (fun a => lowerStr a.name = String.mk (tok.map Char.toLower)) = none →
      resolve_agent_for_message raw agents teams =
        (minAgentId agents, String.mk (pyStrip raw.data))) ∧
    (∀ (raw : String) (teams : List TeamRec),
      (∀ t ∈ teams, strTruthy t.leader_agent_id = false) →
      resolve_agent_for_message raw [] teams = (none, String.mk (pyStrip raw.data))) := by
  refine ⟨?_, ?_, ?_, ?_⟩
  · intro agents teams hex
    have hm : matchAtToken (pyStrip ("@coder fix the bug" : String).data) =
        some (("coder" : String).data, ("fix the bug" : String).data) := by decide
    have hcand : String.mk ((("coder" : String).data).map Char.toLower) = "coder" := by
      decide
    have hfind : ∃ a, agents.find? (fun a => a.id = "coder") = some a := by
      rcases hex with ⟨a, ha, haid⟩
      have : (agents.find? (fun a => a.id = "coder")).isSome := by
        rw [List.find?_isSome]
        exact ⟨a, ha, by simp [haid]⟩
      exact Option.isSome_iff_exists.mp this
    rcases hfind with ⟨a, hfa⟩
    have haid : a.id = "coder" := by
      have := List.find?_some hfa
      simpa using this
    simp only [resolve_agent_for_message, hm, hcand, hfa, haid]
  · intro a b teams ha hb
    have hm : matchAtToken (pyStrip ("no prefix here" : String).data) = none := by decide
    simp only [resolve_agent_for_message, hm, minAgentId, List.map_cons, List.map_nil,
      List.foldl_cons, List.foldl_nil, ha, hb]
    decide
  · intro raw agents teams tok msg hm hf1 hf2 hf3
    simp only [resolve_agent_for_message, hm, hf1, hf2, hf3]
    cases hmin : minAgentId agents <;> simp [hmin]
  · intro raw teams hteams
    simp only [resolve_agent_for_message]
    cases hm : matchAtToken (pyStrip raw.data) with
    | none => cases hmin : minAgentId ([] : List AgentRec) <;> simp_all [minAgentId]
    | some pr =>
      rcases pr with ⟨tok, msg⟩
      simp only [List.find?_nil]
      cases hf : teams.find? (fun t => t.id = String.mk (tok.map Char.toLower)) with
      | none => simp [minAgentId]
      | some t =>
        have hmem : t ∈ teams := List.mem_of_find?_eq_some hf
        have := hteams t hmem
        simp [this, minAgentId]

/-- C9 witness: the resolver theorem applied to the four concrete
scenarios. -/
theorem c9_resolve_target_witness :
    resolve_agent_for_message "@coder fix the bug"
      [⟨"coder", "Coder", some "anthropic", "m", "", none⟩] [] =
      (some "coder", "fix the bug") ∧
    resolve_agent_for_message "no prefix here"
      [⟨"alice", "Alice", none, "m", "", none⟩, ⟨"bob", "Bob", none, "m", "", none⟩] [] =
      (some "alice", "no prefix here") ∧
    resolve_agent_for_message "@ghost hi"
      [⟨"alice", "Alice", none, "m", "", none⟩, ⟨"bob", "Bob", none, "m", "", none⟩] [] =
      (minAgentId [⟨"alice", "Alice", none, "m", "", none⟩,
        ⟨"bob", "Bob", none, "m", "", none⟩], "@ghost hi") ∧
    resolve_agent_for_message "hello" [] [⟨"t", none⟩] = (none, "hello") :=
  ⟨c9_resolve_target.1 _ _
     ⟨⟨"coder", "Coder", some "anthropic", "m", "", none⟩, by simp, rfl⟩,
   c9_resolve_target.2.1 ⟨"alice", "Alice", none, "m", "", none⟩
     ⟨"bob", "Bob", none, "m", "", none⟩ [] rfl rfl,
   c9_resolve_target.2.2.1 "@ghost hi" _ _ ("ghost" : String).data ("hi" : String).data
     (by decide) (by decide) (by decide) (by decide),
   c9_resolve_target.2.2.2 "hello" [⟨"t", none⟩] (by decide)⟩

/-!  ## C7 — the bounded tool-use loop  -/

theorem toolLoop_rounds_le {μ : Type} (p : ProviderBehavior μ)
    (execTool : ToolCallRec → String) :
    ∀ (fuel : Nat) (msgs : List μ) (t : String) (n : Nat),
      toolLoop p execTool fuel msgs = .ok (t, n) → n ≤ fuel := by
  intro fuel
  induction fuel with
  | zero =>
    intro msgs t n h
    simp only [toolLoop, Except.ok.injEq, Prod.mk.injEq] at h
    omega
  | succ f ih =>
    intro msgs t n h
    simp only [toolLoop] at h
    cases hc : p.complete msgs with
    | error e => rw [hc] at h; exact absurd h (by simp)
    | ok r =>
      rw [hc] at h
      by_cases he : r.tool_calls.isEmpty
      · simp only [he, if_true, Except.ok.injEq, Prod.mk.injEq] at h
        omega
      · simp only [he, if_false] at h
        cases hrec : toolLoop p execTool f
            (p.appendToolResults (p.appendAssistant msgs r) r.tool_calls
              (r.tool_calls.map execTool)) with
        | error e => rw [hrec] at h; simp [Except.map] at h
        | ok pr =>
          rw [hrec] at h
          have hinj : (pr.1, pr.2 + 1) = (t, n) := by simpa [Except.map] using h
          have hn : pr.2 + 1 = n := congrArg Prod.snd hinj
          have := ih _ pr.1 pr.2 (by rw [hrec])
          omega

theorem toolLoop_all_tools {μ : Type} (p : ProviderBehavior μ)
    (execTool : ToolCallRec → String)
    (h : ∀ m : List μ, ∃ r, p.complete m = .ok r ∧ r.tool_calls ≠ []) :
    ∀ (fuel : Nat) (msgs : List μ),
      toolLoop p execTool fuel msgs = .ok (maxRoundsReply, fuel) := by
  intro fuel
  induction fuel with
  | zero => intro msgs; rfl
  | succ f ih =>
    intro msgs
    rcases h msgs with ⟨r, hc, hr⟩
    have he : r.tool_calls.isEmpty = false := by
      cases hcalls : r.tool_calls with
      | nil => exact absurd hcalls hr
      | cons x xs => simp [hcalls]
    simp only [toolLoop, hc, he, if_false, Bool.false_eq_true, ih, Except.map]

/-- C7: the tool-use loop of `invoke_agent` makes at most `MAX_ROUNDS`
(= 10) provider calls; a round with no tool invocations ends the loop
with that round's text after exactly that call, a round with tool
invocations continues the loop, and when every round returns tool
invocations the loop terminates normally with the fixed sentinel reply
`[Max tool rounds reached without a final answer]` after exactly 10
rounds. -/
theorem c7_tool_loop_bounded {μ : Type} (p : ProviderBehavior μ)
    (execTool : ToolCallRec → String) (msgs : List μ) :
    (∀ t n, toolLoop p execTool MAX_ROUNDS msgs = .ok (t, n) → n ≤ 10) ∧
    ((∀ m : List μ, ∃ r, p.complete m = .ok r ∧ r.tool_calls ≠ []) →
      toolLoop p execTool MAX_ROUNDS msgs = .ok (maxRoundsReply, 10)) ∧
    (∀ r, p.complete msgs = .ok r → r.tool_calls = [] →
      ∀ fuel, toolLoop p execTool (fuel + 1) msgs = .ok (r.text, 1)) ∧
    (∀ r, p.complete msgs = .ok r → r.tool_calls ≠ [] →
      ∀ fuel, toolLoop p execTool (fuel + 1) msgs =
        (toolLoop p execTool fuel
          (p.appendToolResults (p.appendAssistant msgs r) r.tool_calls
            (r.tool_calls.map execTool))).map fun pr => (pr.1, pr.2 + 1)) := by
  refine ⟨fun t n h => toolLoop_rounds_le p execTool MAX_ROUNDS msgs t n h,
    fun h => toolLoop_all_tools p execTool h MAX_ROUNDS msgs,
    fun r hc hr fuel => ?_, fun r hc hr fuel => ?_⟩
  · simp [toolLoop, hc, hr]
  · have he : r.tool_calls.isEmpty = false := by
      cases hcalls : r.tool_calls with
      | nil => exact absurd hcalls hr
      | cons x xs => simp [hcalls]
    simp [toolLoop, hc, he]

/-- C7 witness: the loop theorem applied to a provider that always
requests a tool (sentinel after 10 rounds, and 10 ≤ 10) and to one that
answers immediately (final answer after one round). -/
theorem c7_tool_loop_bounded_witness :
    toolLoop (constProvider ⟨"ans", [⟨"1", "q", "{}"⟩]⟩) noTool MAX_ROUNDS [] =
      .ok (maxRoundsReply, 10) ∧
    (10 : Nat) ≤ 10 ∧
    toolLoop (constProvider ⟨"hi", []⟩) noTool MAX_ROUNDS [] = .ok ("hi", 1) := by
  have h1 := (c7_tool_loop_bounded (constProvider ⟨"ans", [⟨"1", "q", "{}"⟩]⟩) noTool
    ([] : List Unit)).2.1 (fun m => ⟨⟨"ans", [⟨"1", "q", "{}"⟩]⟩, rfl, by decide⟩)
  have h2 := (c7_tool_loop_bounded (constProvider ⟨"ans", [⟨"1", "q", "{}"⟩]⟩) noTool
    ([] : List Unit)).1 maxRoundsReply 10 h1
  have h3 := (c7_tool_loop_bounded (constProvider ⟨"hi", []⟩) noTool
    ([] : List Unit)).2.2.1 ⟨"hi", []⟩ rfl rfl 9
  exact ⟨h1, h2, h3⟩

/-!  ## C8 — unrecognized provider keys  -/

/-- The visible reply produced by `invoke_agent` when provider selection
fails (`services/invoker.py` lines 143–146). -/
def configErrorReply (name : String) : String :=
  "[Configuration error: " ++
    ("Unknown provider: '" ++ name ++ "'. Use anthropic, openai, or google.") ++ "]"

/-- C8: an unrecognized provider key makes `get_provider` fail
immediately with the `Unknown provider` error (never a fallback vendor);
when such a key reaches selection (a truthy `agent.provider`), the
invocation loop returns the `[Configuration error: ...]` text as the
reply, and the task executor therefore completes the task as `done` with
that explanatory message as its result and no error. -/
theorem c8_unknown_provider (name : String)
    (h1 : name ≠ "anthropic") (h2 : name ≠ "openai") (h3 : name ≠ "google") :
    (get_provider name =
      .error ("Unknown provider: '" ++ name ++ "'. Use anthropic, openai, or google.")) ∧
    (∀ (μ : Type) (mk : String → String → μ) (p : ProviderBehavior μ)
      (execTool : ToolCallRec → String) (enrich : String → String) (db : DBState)
      (agent : AgentRec) (sid : String) (sname : Option String) (msg ch : String),
      agent.provider = some name → name ≠ "" →
      invoke_agent mk p execTool enrich db agent sid sname msg ch =
        .ok (configErrorReply name,
          { db with store := (get_or_create_conversation db.store agent.id sid sname ch).2 })) ∧
    (∀ (μ : Type) (mk : String → String → μ) (p : ProviderBehavior μ)
      (execTool : ToolCallRec → String) (enrich : String → String) (db : DBState)
      (agents : List AgentRec) (item : TaskItem) (agent : AgentRec),
      agents.find? (fun a => a.id = item.agent_id) = some agent →
      agent.provider = some name → name ≠ "" →
      (processTask mk p execTool enrich agents db item).trace =
        [⟨"processing", none, none⟩,
         ⟨"done", some (cleanReplyOf (configErrorReply name) item.agent_id
           (getTeamAgentIds agents item.agent_id)), none⟩]) := by
  have hga : get_provider name =
      .error ("Unknown provider: '" ++ name ++ "'. Use anthropic, openai, or google.") := by
    simp [get_provider, h1, h2, h3]
  refine ⟨hga, ?_, ?_⟩
  · intro μ mk p execTool enrich db agent sid sname msg ch hp hne
    have hpn : providerNameOf agent = name := by simp [providerNameOf, hp, hne]
    simp only [invoke_agent, hpn, hga, configErrorReply]
  · intro μ mk p execTool enrich db agents item agent hfind hp hne
    have hpn : providerNameOf agent = name := by simp [providerNameOf, hp, hne]
    simp only [processTask, hfind, invoke_agent, hpn, hga, cleanReplyOf, configErrorReply]

/-- C8 witness: the theorem applied to the key `grok` and a concrete
agent, database and task item. -/
theorem c8_unknown_provider_witness :
    get_provider "grok" =
      .error ("Unknown provider: '" ++ "grok" ++ "'. Use anthropic, openai, or google.") ∧
    invoke_agent unitMk (constProvider ⟨"hi", []⟩) noTool id emptyDB
      ⟨"a", "A", some "grok", "m", "", none⟩ "s" none "msg" "whatsapp" =
      .ok (configErrorReply "grok",
        { emptyDB with
          store := (get_or_create_conversation emptyDB.store "a" "s" none "whatsapp").2 }) ∧
    (processTask unitMk (constProvider ⟨"hi", []⟩) noTool id
      [⟨"a", "A", some "grok", "m", "", none⟩] emptyDB
      ⟨"t1", "a", "s", none, "msg", "whatsapp", none, none⟩).trace =
      [⟨"processing", none, none⟩,
       ⟨"done", some (cleanReplyOf (configErrorReply "grok") "a"
         (getTeamAgentIds [⟨"a", "A", some "grok", "m", "", none⟩] "a")), none⟩] := by
  have h := c8_unknown_provider "grok" (by decide) (by decide) (by decide)
  exact ⟨h.1,
    h.2.1 Unit unitMk (constProvider ⟨"hi", []⟩) noTool id emptyDB
      ⟨"a", "A", some "grok", "m", "", none⟩ "s" none "msg" "whatsapp" rfl (by decide),
    h.2.2 Unit unitMk (constProvider ⟨"hi", []⟩) noTool id emptyDB
      [⟨"a", "A", some "grok", "m", "", none⟩]
      ⟨"t1", "a", "s", none, "msg", "whatsapp", none, none⟩
      ⟨"a", "A", some "grok", "m", "", none⟩ (by decide) rfl (by decide)⟩

/-!  ## C1 — the task lifecycle  -/

/-- C1 counterexample: a concrete run of `TaskQueue._process` commits the
task record first with status `processing` — the `queued` status is never
persisted (it exists only in the in-memory queue and the log line), so
the claim that the record is first persisted as `queued` is false. -/
theorem c1_first_persisted_processing :
    (processTask unitMk (constProvider ⟨"hi", []⟩) noTool id
      [⟨"a", "A", some "anthropic", "m", "", none⟩] emptyDB
      ⟨"t1", "a", "s", none, "hello", "whatsapp", none, none⟩).trace.map TaskRec.status =
      ["processing", "done"] ∧
    ("processing" : String) ≠ "queued" := by
  constructor <;> decide

/-- C1 (amended): every committed task-record snapshot of
`TaskQueue._process` starts at `processing` (never `queued`), moves only
forward to a terminal `done`/`failed`, never regresses, and satisfies:
`result` is non-null iff the status is `done`, `error` is non-null iff
the status is `failed` (so never both). -/
theorem c1_lifecycle (μ : Type) (mk : String → String → μ) (p : ProviderBehavior μ)
    (execTool : ToolCallRec → String) (enrich : String → String)
    (agents : List AgentRec) (db : DBState) (item : TaskItem) :
    (processTask mk p execTool enrich agents db item).trace.head? =
      some ⟨"processing", none, none⟩ ∧
    (∀ t ∈ (processTask mk p execTool enrich agents db item).trace,
      t.status = "processing" ∨ t.status = "done" ∨ t.status = "failed") ∧
    List.Chain' (fun a b => a.status = "processing" ∧
      (b.status = "done" ∨ b.status = "failed"))
      (processTask mk p execTool enrich agents db item).trace ∧
    (∀ t ∈ (processTask mk p execTool enrich agents db item).trace,
      (t.result ≠ none ↔ t.status = "done") ∧ (t.error ≠ none ↔ t.status = "failed")) := by
  simp only [processTask]
  refine ⟨?_, ?_, ?_, ?_⟩ <;>
    (split
     · simp
     · split <;> simp [List.chain'_cons])

/-- C1 witness: the lifecycle theorem applied to a concrete run, reading
off the head snapshot and the result/error discipline of both snapshots. -/
theorem c1_lifecycle_witness :
    (processTask unitMk (constProvider ⟨"hi", []⟩) noTool id
      [⟨"a", "A", some "anthropic", "m", "", none⟩] emptyDB
      ⟨"t1", "a", "s", none, "hello", "whatsapp", none, none⟩).trace.head? =
      some ⟨"processing", none, none⟩ ∧
    ((⟨"done", some "hi", none⟩ : TaskRec).result ≠ none ↔
      (⟨"done", some "hi", none⟩ : TaskRec).status = "done") := by
  have h := c1_lifecycle Unit unitMk (constProvider ⟨"hi", []⟩) noTool id
    [⟨"a", "A", some "anthropic", "m", "", none⟩] emptyDB
    ⟨"t1", "a", "s", none, "hello", "whatsapp", none, none⟩
  refine ⟨h.1, (h.2.2.2 ⟨"done", some "hi", none⟩ ?_).1⟩
  decide

/-!  ## C4 — `strip_teammate_tags` and idempotence  -/

theorem dropWhile_self (p : Char → Bool) :
    ∀ l : List Char, List.dropWhile p (List.dropWhile p l) = List.dropWhile p l := by
  intro l
  induction l with
  | nil => rfl
  | cons c cs ih =>
    by_cases hc : p c
    · simp [List.dropWhile_cons, hc, ih]
    · simp [List.dropWhile_cons, hc]

theorem dropWhile_head_not (p : Char → Bool) :
    ∀ (l : List Char) (c : Char) (cs : List Char),
      List.dropWhile p l = c :: cs → p c = false := by
  intro l
  induction l with
  | nil => intro c cs h; simp [List.dropWhile] at h
  | cons x xs ih =>
    intro c cs h
    by_cases hx : p x
    · rw [List.dropWhile_cons_of_pos hx] at h
      exact ih c cs h
    · rw [List.dropWhile_cons_of_neg hx] at h
      obtain ⟨rfl, -⟩ := List.cons.inj h
      exact Bool.eq_false_iff.mpr hx

theorem dropWhile_is_suffix (p : Char → Bool) :
    ∀ l : List Char, ∃ t, l = t ++ List.dropWhile p l := by
  intro l
  induction l with
  | nil => exact ⟨[], rfl⟩
  | cons c cs ih =>
    by_cases hc : p c
    · obtain ⟨t, ht⟩ := ih
      exact ⟨c :: t, by simp [List.dropWhile_cons, hc, ← ht]⟩
    · exact ⟨[], by simp [List.dropWhile_cons, hc]⟩

theorem pyStrip_idem (s : List Char) : pyStrip (pyStrip s) = pyStrip s := by
  unfold pyStrip
  set u := s.dropWhile pySpace with hu
  cases hw : u.reverse.dropWhile pySpace with
  | nil => simp [hw]
  | cons wc wcs =>
    set w := wc :: wcs with hwdef
    set v := w.reverse with hv
    have hvu : ∃ t, u = w.reverse ++ t := by
      obtain ⟨t, ht⟩ := dropWhile_is_suffix pySpace u.reverse
      rw [hw] at ht
      refine ⟨t.reverse, ?_⟩
      have := congrArg List.reverse ht
      simpa using this
    have hvhead : ∀ c cs, w.reverse = c :: cs → pySpace c = false := by
      intro c cs hcons
      obtain ⟨t, ht⟩ := hvu
      rw [hcons] at ht
      rcases hu2 : u with _ | ⟨uc, ucs⟩
      · rw [hu2] at ht; simp at ht
      · rw [hu2] at ht
        obtain ⟨h1, -⟩ := List.cons.inj ht
        have := dropWhile_head_not pySpace s uc ucs (by rw [← hu, hu2])
        rw [← h1]
        exact this
    have hdv : List.dropWhile pySpace w.reverse = w.reverse := by
      rcases hr : w.reverse with _ | ⟨c, cs⟩
      · rfl
      · rw [List.dropWhile_cons_of_neg]
        simp [hvhead c cs hr]
    rw [← hv] at hdv
    rw [hdv]
    have hvrev : v.reverse = w := by rw [hv, List.reverse_reverse]
    rw [hvrev]
    have hdw : List.dropWhile pySpace w = w := by rw [← hw, dropWhile_self]
    rw [hdw, hv]

theorem stripCoreF_of_noMatch :
    ∀ (f : Nat) (s : List Char), hasMatch s = false → stripCoreF f s = s := by
  intro f
  induction f with
  | zero => intro s _; rfl
  | succ g ih =>
    intro s h
    cases s with
    | nil => rfl
    | cons c cs =>
      simp only [hasMatch, Bool.or_eq_false_iff] at h
      have hm : matchTag (c :: cs) = none := by
        rcases hmt : matchTag (c :: cs) with _ | v
        · rfl
        · rw [hmt] at h; simp at h
      simp only [stripCoreF, hm]
      rw [ih cs h.2]

/-- C4 counterexample: `strip_delegation_tags` is not idempotent and its
output can still contain a directive: on `"[[@a: b]@x: y]"` the single
pass removes the inner tag `[@a: b]`, and the leftover characters
juxtapose into the new directive `"[@x: y]"`, which a second pass
removes. -/
theorem c4_strip_not_idempotent :
    strip_teammate_tags (("[[@a: b]@x: y]" : String).data) = ("[@x: y]" : String).data ∧
    strip_teammate_tags (strip_teammate_tags (("[[@a: b]@x: y]" : String).data)) ≠
      strip_teammate_tags (("[[@a: b]@x: y]" : String).data) ∧
    hasMatch (strip_teammate_tags (("[[@a: b]@x: y]" : String).data)) = true := by
  refine ⟨?_, ?_, ?_⟩ <;> decide

/-- C4 (amended): `strip_delegation_tags` removes the directives matched
in a single left-to-right scan and trims; whenever its output contains no
directive pattern (the common case — removal creates a new directive only
when a removed tag abuts leftover bracket text), a second application
returns the output unchanged. -/
theorem c4_strip_idempotent_of_noMatch (x : List Char)
    (h : hasMatch (strip_teammate_tags x) = false) :
    strip_teammate_tags (strip_teammate_tags x) = strip_teammate_tags x := by
  unfold strip_teammate_tags
  unfold strip_teammate_tags at h
  have h1 : stripCore (pyStrip (stripCore x)) = pyStrip (stripCore x) := by
    unfold stripCore
    exact stripCoreF_of_noMatch _ _ h
  rw [h1, pyStrip_idem]

/-- C4 witness: the amended theorem applied to
`"hello [@bob: hi] there"`, whose stripped form `"hello  there"` is
directive-free. -/
theorem c4_strip_idempotent_witness :
    strip_teammate_tags (strip_teammate_tags (("hello [@bob: hi] there" : String).data)) =
      strip_teammate_tags (("hello [@bob: hi] there" : String).data) :=
  c4_strip_idempotent_of_noMatch (("hello [@bob: hi] there" : String).data) (by decide)

/-!  ## C5 — `extract_teammate_mentions`  -/

theorem emitPieces_map_fst (c : List Char) (t : List (List Char)) (f : List Char) :
    ∀ (xs : List (List Char)) (seen : List (List Char)),
      (emitPieces c t f xs seen).1.map Prod.fst = firstSeenFilter c t xs seen := by
  intro xs
  induction xs with
  | nil => intro seen; rfl
  | cons x xs ih =>
    intro seen
    by_cases hcond : x ≠ [] ∧ x ∉ seen ∧ x ≠ c ∧ x ∈ t
    · simp only [emitPieces, firstSeenFilter, if_pos hcond, List.map_cons, ih]
    · simp only [emitPieces, firstSeenFilter, if_neg hcond, ih]

theorem emitPieces_seen (c : List Char) (t : List (List Char)) (f : List Char) :
    ∀ (xs : List (List Char)) (seen : List (List Char)),
      (emitPieces c t f xs seen).2 = (firstSeenFilter c t xs seen).reverse ++ seen := by
  intro xs
  induction xs with
  | nil => intro seen; rfl
  | cons x xs ih =>
    intro seen
    by_cases hcond : x ≠ [] ∧ x ∉ seen ∧ x ≠ c ∧ x ∈ t
    · simp only [emitPieces, firstSeenFilter, if_pos hcond, ih, List.reverse_cons,
        List.append_assoc, List.cons_append, List.nil_append]
    · simp only [emitPieces, firstSeenFilter, if_neg hcond, ih]

theorem firstSeenFilter_append (c : List Char) (t : List (List Char)) :
    ∀ (xs ys seen : List (List Char)),
      firstSeenFilter c t (xs ++ ys) seen =
        firstSeenFilter c t xs seen ++
          firstSeenFilter c t ys ((firstSeenFilter c t xs seen).reverse ++ seen) := by
  intro xs
  induction xs with
  | nil => intro ys seen; rfl
  | cons x xs ih =>
    intro ys seen
    by_cases hcond : x ≠ [] ∧ x ∉ seen ∧ x ≠ c ∧ x ∈ t
    · simp only [List.cons_append, firstSeenFilter, if_pos hcond, List.reverse_cons,
        List.append_assoc, List.cons_append, List.nil_append, List.append_eq]
      rw [ih]
    · simp only [List.cons_append, firstSeenFilter, if_neg hcond, List.append_eq]
      exact ih ys seen

theorem extractGo_map_fst (c : List Char) (t : List (List Char)) (sh : List Char) :
    ∀ (ms : List (List Char × List Char)) (seen : List (List Char)),
      (extractGo c t sh ms seen).map Prod.fst =
        firstSeenFilter c t
          (ms.flatMap fun m => (splitOnComma (m.1.map Char.toLower)).map pyStrip) seen := by
  intro ms
  induction ms with
  | nil => intro seen; rfl
  | cons m ms ih =>
    intro seen
    obtain ⟨idsRaw, content⟩ := m
    simp only [extractGo, List.map_append, emitPieces_map_fst, ih, emitPieces_seen,
      List.flatMap_cons, firstSeenFilter_append]

theorem firstSeenFilter_mem (c : List Char) (t : List (List Char)) :
    ∀ (xs seen : List (List Char)) (x : List Char),
      x ∈ firstSeenFilter c t xs seen →
      x ≠ [] ∧ x ∉ seen ∧ x ≠ c ∧ x ∈ t := by
  intro xs
  induction xs with
  | nil => intro seen x hx; simp [firstSeenFilter] at hx
  | cons y ys ih =>
    intro seen x hx
    by_cases hcond : y ≠ [] ∧ y ∉ seen ∧ y ≠ c ∧ y ∈ t
    · simp only [firstSeenFilter, if_pos hcond] at hx
      rcases List.mem_cons.mp hx with rfl | hx2
      · exact hcond
      · have := ih (y :: seen) x hx2
        exact ⟨this.1, fun hmem => this.2.1 (List.mem_cons_of_mem y hmem), this.2.2⟩
    · simp only [firstSeenFilter, if_neg hcond] at hx
      exact ih seen x hx

theorem firstSeenFilter_nodup (c : List Char) (t : List (List Char)) :
    ∀ (xs seen : List (List Char)), (firstSeenFilter c t xs seen).Nodup := by
  intro xs
  induction xs with
  | nil => intro seen; simp [firstSeenFilter]
  | cons y ys ih =>
    intro seen
    by_cases hcond : y ≠ [] ∧ y ∉ seen ∧ y ≠ c ∧ y ∈ t
    · simp only [firstSeenFilter, if_pos hcond]
      refine List.nodup_cons.mpr ⟨?_, ih (y :: seen)⟩
      intro hmem
      have := firstSeenFilter_mem c t ys (y :: seen) y hmem
      exact this.2.1 (List.mem_cons_self y seen)
    · simp only [firstSeenFilter, if_neg hcond]
      exact ih seen

/-- C5: `extract_teammate_mentions` never emits a delegation whose id is
empty, equals the acting agent, or is absent from the team list; the
emitted ids are exactly the first-seen filter of the candidate-id stream
(one delegation per id that is non-empty, eligible, not the acting agent
and not yet emitted — ineligible, duplicate and self ids are silently
dropped, and first-seen order is preserved); consequently the emitted ids
are pairwise distinct. -/
theorem c5_extract_mentions (r a : List Char) (t : List (List Char)) :
    (∀ d ∈ extract_teammate_mentions r a t, d.1 ≠ a ∧ d.1 ∈ t ∧ d.1 ≠ []) ∧
    (extract_teammate_mentions r a t).map Prod.fst =
      firstSeenFilter a t (candidateIds r) [] ∧
    ((extract_teammate_mentions r a t).map Prod.fst).Nodup := by
  have hmap : (extract_teammate_mentions r a t).map Prod.fst =
      firstSeenFilter a t (candidateIds r) [] := by
    simp only [extract_teammate_mentions, candidateIds]
    exact extractGo_map_fst a t (pyStrip (stripCore r)) (tagMatches r) []
  refine ⟨?_, hmap, ?_⟩
  · intro d hd
    have hd1 : d.1 ∈ (extract_teammate_mentions r a t).map Prod.fst :=
      List.mem_map_of_mem Prod.fst hd
    rw [hmap] at hd1
    have := firstSeenFilter_mem a t (candidateIds r) [] d.1 hd1
    exact ⟨this.2.2.1, this.2.2.2, this.1⟩
  · rw [hmap]
    exact firstSeenFilter_nodup a t (candidateIds r) []

/-- C5 witness: the extraction theorem applied to a reply with a
duplicate, a self and an ineligible id, checking the emitted pair. -/
theorem c5_extract_mentions_witness :
    (("bob" : String).data ≠ ("alice" : String).data ∧
      ("bob" : String).data ∈ [("alice" : String).data, ("bob" : String).data] ∧
      ("bob" : String).data ≠ []) ∧
    (extract_teammate_mentions ("[@bob,alice,eve,bob: go]" : String).data
      ("alice" : String).data
      [("alice" : String).data, ("bob" : String).data]).map Prod.fst =
      firstSeenFilter ("alice" : String).data
        [("alice" : String).data, ("bob" : String).data]
        (candidateIds ("[@bob,alice,eve,bob: go]" : String).data) [] := by
  have h := c5_extract_mentions ("[@bob,alice,eve,bob: go]" : String).data
    ("alice" : String).data [("alice" : String).data, ("bob" : String).data]
  refine ⟨?_, h.2.1⟩
  have hd := h.1 (("bob" : String).data, ("go" : String).data) (by decide)
  exact hd

/-!  ## C3 — the stored task result  -/

/-- C3 counterexample: when the reply's only directive addresses the
acting agent itself, the mention scan yields nothing and `_process`
stores the *raw* reply — the directive markup survives in the task
result, so "the stored result contains no `[@...]` markup regardless of
whether the scan produced any eligible delegation" is false. -/
theorem c3_markup_survives :
    (processTask unitMk (constProvider ⟨"[@alice: hi] hello", []⟩) noTool id
      [⟨"alice", "Alice", some "anthropic", "m", "", some "t"⟩,
       ⟨"bob", "Bob", some "anthropic", "m", "", some "t"⟩] emptyDB
      ⟨"t1", "alice", "s", none, "msg", "whatsapp", none, none⟩).trace.map
        (fun t => (t.status, t.result)) =
      [("processing", none), ("done", some "[@alice: hi] hello")] ∧
    hasMatch (("[@alice: hi] hello" : String).data) = true ∧
    stripTagsS "[@alice: hi] hello" ≠ "[@alice: hi] hello" := by
  refine ⟨?_, ?_, ?_⟩ <;> decide

/-- C3 (amended): on a successful invocation the stored task result (and
the reply delivered to the original sender for top-level tasks) equals
`strip_teammate_tags reply` when the mention scan produced at least one
eligible delegation, and the unmodified reply otherwise. -/
theorem c3_result_clean_reply (μ : Type) (mk : String → String → μ)
    (p : ProviderBehavior μ) (execTool : ToolCallRec → String)
    (enrich : String → String) (agents : List AgentRec) (db : DBState)
    (item : TaskItem) (agent : AgentRec) (reply : String) (db' : DBState)
    (hfind : agents.find? (fun a => a.id = item.agent_id) = some agent)
    (hinv : invoke_agent mk p execTool enrich db agent
      (convKey item.group_id item.sender_id) item.sender_name item.message
      item.channel = .ok (reply, db')) :
    (processTask mk p execTool enrich agents db item).trace =
      [⟨"processing", none, none⟩,
       ⟨"done", some (cleanReplyOf reply item.agent_id
         (getTeamAgentIds agents item.agent_id)), none⟩] ∧
    (extractMentionsS reply item.agent_id (getTeamAgentIds agents item.agent_id) ≠ [] →
      cleanReplyOf reply item.agent_id (getTeamAgentIds agents item.agent_id) =
        stripTagsS reply) ∧
    (extractMentionsS reply item.agent_id (getTeamAgentIds agents item.agent_id) = [] →
      cleanReplyOf reply item.agent_id (getTeamAgentIds agents item.agent_id) = reply) ∧
    (strTruthy item.parent_task_id = false →
      (processTask mk p execTool enrich agents db item).delivered =
        some (convKey item.group_id item.sender_id,
          cleanReplyOf reply item.agent_id (getTeamAgentIds agents item.agent_id))) := by
  refine ⟨?_, fun h => ?_, fun h => ?_, fun h => ?_⟩
  · simp only [processTask, hfind, hinv, cleanReplyOf]
  · simp only [cleanReplyOf, if_pos h]
  · simp only [cleanReplyOf, h]
    simp
  · simp only [processTask, hfind, hinv, cleanReplyOf, h, Bool.false_eq_true, if_false]

/-- C3 witness: the amended theorem applied to a run whose reply contains
one eligible delegation: the stored result is the stripped reply. -/
theorem c3_result_clean_reply_witness :
    (processTask unitMk (constProvider ⟨"ok [@bob: go]", []⟩) noTool id
      [⟨"alice", "Alice", some "anthropic", "m", "", some "t"⟩,
       ⟨"bob", "Bob", some "anthropic", "m", "", some "t"⟩] emptyDB
      ⟨"t1", "alice", "s", none, "msg", "whatsapp", none, none⟩).trace =
      [⟨"processing", none, none⟩,
       ⟨"done", some (cleanReplyOf "ok [@bob: go]" "alice"
         (getTeamAgentIds [⟨"alice", "Alice", some "anthropic", "m", "", some "t"⟩,
           ⟨"bob", "Bob", some "anthropic", "m", "", some "t"⟩] "alice")), none⟩] ∧
    cleanReplyOf "ok [@bob: go]" "alice"
      (getTeamAgentIds [⟨"alice", "Alice", some "anthropic", "m", "", some "t"⟩,
        ⟨"bob", "Bob", some "anthropic", "m", "", some "t"⟩] "alice") =
      stripTagsS "ok [@bob: go]" := by
  have h := c3_result_clean_reply Unit unitMk (constProvider ⟨"ok [@bob: go]", []⟩)
    noTool id
    [⟨"alice", "Alice", some "anthropic", "m", "", some "t"⟩,
     ⟨"bob", "Bob", some "anthropic", "m", "", some "t"⟩] emptyDB
    ⟨"t1", "alice", "s", none, "msg", "whatsapp", none, none⟩
    ⟨"alice", "Alice", some "anthropic", "m", "", some "t"⟩ "ok [@bob: go]"
    ⟨⟨[⟨0, "alice", "s", none, "whatsapp"⟩], 1⟩,
     [⟨0, "user", "msg"⟩, ⟨0, "assistant", "ok [@bob: go]"⟩]⟩
    (by decide) rfl
  exact ⟨h.1, h.2.1 (by decide)⟩

/-!  ## C6 — the shared group conversation  -/

theorem find?_map_keyPreserving (pb : ConvRec → Bool) (c c' : ConvRec)
    (hc' : pb c' = true) (hid : c'.id = c.id) :
    ∀ l : List ConvRec, l.find? pb = some c →
      ∃ d, (l.map fun x => if x.id = c.id then c' else x).find? pb = some d ∧
        d.id = c.id := by
  intro l
  induction l with
  | nil => intro h; simp at h
  | cons x xs ih =>
    intro h
    by_cases hx : pb x
    · rw [List.find?_cons_of_pos xs hx] at h
      obtain rfl := Option.some.inj h
      refine ⟨c', ?_, hid⟩
      simp only [List.map_cons, if_pos rfl]
      exact List.find?_cons_of_pos _ hc'
    · rw [List.find?_cons_of_neg xs hx] at h
      by_cases hxid : x.id = c.id
      · refine ⟨c', ?_, hid⟩
        simp only [List.map_cons, if_pos hxid]
        exact List.find?_cons_of_pos _ hc'
      · obtain ⟨d, hd, hdid⟩ := ih h
        refine ⟨d, ?_, hdid⟩
        simp only [List.map_cons, if_neg hxid]
        rw [List.find?_cons_of_neg _ hx]
        exact hd

theorem find?_append_right (pb : ConvRec → Bool) (c : ConvRec) (hc : pb c = true) :
    ∀ l : List ConvRec, l.find? pb = none → (l ++ [c]).find? pb = some c := by
  intro l
  induction l with
  | nil => intro _; simpa using List.find?_cons_of_pos [] hc
  | cons x xs ih =>
    intro h
    by_cases hx : pb x
    · rw [List.find?_cons_of_pos xs hx] at h; exact absurd h (by simp)
    · rw [List.find?_cons_of_neg xs hx] at h
      rw [List.cons_append, List.find?_cons_of_neg (xs ++ [c]) hx]
      exact ih h

theorem goc_eq_none (st : ConvStore) (agentId key ch : String) (n : Option String)
    (h : st.convs.find? (fun c =>
      c.agent_id = agentId ∧ c.sender_id = key ∧ c.channel = ch) = none) :
    get_or_create_conversation st agentId key n ch =
      (⟨st.nextId, agentId, key, n, ch⟩,
        ⟨st.convs ++ [⟨st.nextId, agentId, key, n, ch⟩], st.nextId + 1⟩) := by
  unfold get_or_create_conversation
  rw [h]

theorem goc_eq_backfill (st : ConvStore) (agentId key ch : String) (n : Option String)
    (c : ConvRec)
    (h : st.convs.find? (fun c =>
      c.agent_id = agentId ∧ c.sender_id = key ∧ c.channel = ch) = some c)
    (hcond : strTruthy n = true ∧ ¬ strTruthy c.sender_name = true) :
    get_or_create_conversation st agentId key n ch =
      ({ c with sender_name := n },
        { st with convs := st.convs.map fun d =>
            if d.id = c.id then { c with sender_name := n } else d }) := by
  unfold get_or_create_conversation
  rw [h]
  simp only [if_pos hcond]

theorem goc_eq_found (st : ConvStore) (agentId key ch : String) (n : Option String)
    (c : ConvRec)
    (h : st.convs.find? (fun c =>
      c.agent_id = agentId ∧ c.sender_id = key ∧ c.channel = ch) = some c)
    (hcond : ¬ (strTruthy n = true ∧ ¬ strTruthy c.sender_name = true)) :
    get_or_create_conversation st agentId key n ch = (c, st) := by
  unfold get_or_create_conversation
  rw [h]
  simp only [if_neg hcond]

theorem goc_finds_itself (st : ConvStore) (agentId key ch : String) (n : Option String) :
    ∃ d, ((get_or_create_conversation st agentId key n ch).2.convs.find? fun c =>
        c.agent_id = agentId ∧ c.sender_id = key ∧ c.channel = ch) = some d ∧
      d.id = (get_or_create_conversation st agentId key n ch).1.id := by
  cases hf : st.convs.find? (fun c =>
      c.agent_id = agentId ∧ c.sender_id = key ∧ c.channel = ch) with
  | none =>
    rw [goc_eq_none st agentId key ch n hf]
    have hp : (fun (c : ConvRec) =>
        decide (c.agent_id = agentId ∧ c.sender_id = key ∧ c.channel = ch))
        ⟨st.nextId, agentId, key, n, ch⟩ = true := by simp
    exact ⟨⟨st.nextId, agentId, key, n, ch⟩,
      find?_append_right _ _ hp st.convs hf, rfl⟩
  | some c =>
    have hpc := List.find?_some hf
    by_cases hcond : strTruthy n = true ∧ ¬ strTruthy c.sender_name = true
    · rw [goc_eq_backfill st agentId key ch n c hf hcond]
      obtain ⟨d, hd, hdid⟩ := find?_map_keyPreserving _ c { c with sender_name := n }
        hpc rfl st.convs hf
      exact ⟨d, hd, hdid⟩
    · rw [goc_eq_found st agentId key ch n c hf hcond]
      exact ⟨c, hf, rfl⟩

theorem get_or_create_same_key (st : ConvStore) (agentId key ch : String)
    (n1 n2 : Option String) :
    (get_or_create_conversation
      (get_or_create_conversation st agentId key n1 ch).2 agentId key n2 ch).1.id =
      (get_or_create_conversation st agentId key n1 ch).1.id := by
  obtain ⟨d, hd, hdid⟩ := goc_finds_itself st agentId key ch n1
  by_cases hcond : strTruthy n2 = true ∧ ¬ strTruthy d.sender_name = true
  · rw [goc_eq_backfill _ agentId key ch n2 d hd hcond]
    exact hdid
  · rw [goc_eq_found _ agentId key ch n2 d hd hcond]
    exact hdid

/-- C6 counterexample: two tasks that both carry the group id `""` (a
group id that is present but empty) with different senders resolve to two
*different* conversations: `group_id or sender_id` treats the empty
string as absent, so the conversation key falls back to each task's own
sender id. -/
theorem c6_empty_group_id_splits :
    convKey (some "") "a" ≠ convKey (some "") "b" ∧
    (get_or_create_conversation
      (get_or_create_conversation ⟨[], 0⟩ "agent" (convKey (some "") "a") none
        "whatsapp").2 "agent" (convKey (some "") "b") none "whatsapp").1.id ≠
      (get_or_create_conversation ⟨[], 0⟩ "agent" (convKey (some "") "a") none
        "whatsapp").1.id := by
  constructor <;> decide

/-- C6 (amended): two tasks carrying the same *non-empty* group id, the
same target agent and the same channel, but different sender ids, resolve
to the same Conversation: the conversation key is the group id whenever
it is truthy (present and non-empty) and the sender id otherwise, so the
key — and hence the conversation row — is independent of the sender. -/
theorem c6_group_shares_conversation (st : ConvStore) (g agentId ch s1 s2 : String)
    (n1 n2 : Option String) (hg : g ≠ "") :
    convKey (some g) s1 = g ∧
    (get_or_create_conversation
      (get_or_create_conversation st agentId (convKey (some g) s1) n1 ch).2
      agentId (convKey (some g) s2) n2 ch).1.id =
      (get_or_create_conversation st agentId (convKey (some g) s1) n1 ch).1.id := by
  have hk : ∀ s : String, convKey (some g) s = g := by
    intro s; simp [convKey, hg]
  refine ⟨hk s1, ?_⟩
  rw [hk s1, hk s2]
  exact get_or_create_same_key st agentId g ch n1 n2

/-- C6 witness: the amended theorem applied to the group id `"g1"` and
two senders `"a"`, `"b"` on an empty store. -/
theorem c6_group_shares_conversation_witness :
    convKey (some "g1") "a" = "g1" ∧
    (get_or_create_conversation
      (get_or_create_conversation ⟨[], 0⟩ "agent" (convKey (some "g1") "a") none
        "whatsapp").2 "agent" (convKey (some "g1") "b") none "whatsapp").1.id =
      (get_or_create_conversation ⟨[], 0⟩ "agent" (convKey (some "g1") "a") none
        "whatsapp").1.id :=
  c6_group_shares_conversation ⟨[], 0⟩ "g1" "agent" "whatsapp" "a" "b" none none
    (by decide)

/-!  ## C10 — message persistence vs invocation failure  -/

/-- C10 counterexample: with the unrecognized provider key `grok`,
`invoke_agent` *does* produce a final reply text (the configuration-error
message) yet persists no Message rows — the conversation row is created,
but the early `return` skips persistence — so "the user message and
assistant reply are appended whenever a final reply text is produced,
including the configuration-error reply" is false. -/
theorem c10_config_error_not_persisted :
    invoke_agent unitMk (constProvider ⟨"hi", []⟩) noTool id emptyDB
      ⟨"a", "A", some "grok", "m", "", none⟩ "s" none "msg" "whatsapp" =
      .ok (configErrorReply "grok",
        ⟨⟨[⟨0, "a", "s", none, "whatsapp"⟩], 1⟩, []⟩) ∧
    configErrorReply "grok" ≠ "" := by
  constructor
  · rfl
  · decide

/-- C10 (amended): `invoke_agent` appends no Message row when the
provider raises (the exception propagates with the message table
unchanged) and none on the configuration-error path (the error reply is
returned before persistence); it appends exactly the original user
message and the final reply — which includes the max-rounds sentinel —
when the tool-use loop produces a final text. -/
theorem invoke_eq_configError {μ : Type} (mk : String → String → μ)
    (p : ProviderBehavior μ) (execTool : ToolCallRec → String)
    (enrich : String → String) (db : DBState) (agent : AgentRec) (sid : String)
    (sname : Option String) (msg ch : String) (err : String)
    (hg : get_provider (providerNameOf agent) = .error err) :
    invoke_agent mk p execTool enrich db agent sid sname msg ch =
      .ok ("[Configuration error: " ++ err ++ "]",
        { db with
          store := (get_or_create_conversation db.store agent.id sid sname ch).2 }) := by
  simp only [invoke_agent]
  rw [hg]

theorem invoke_eq_loopError {μ : Type} (mk : String → String → μ)
    (p : ProviderBehavior μ) (execTool : ToolCallRec → String)
    (enrich : String → String) (db : DBState) (agent : AgentRec) (sid : String)
    (sname : Option String) (msg ch : String) (k : ProviderKind) (e : String)
    (hg : get_provider (providerNameOf agent) = .ok k)
    (hl : toolLoop p execTool MAX_ROUNDS
      (invokeInitialMsgs mk
        { db with store := (get_or_create_conversation db.store agent.id sid sname ch).2 }
        (get_or_create_conversation db.store agent.id sid sname ch).1.id
        (enrich msg)) = .error e) :
    invoke_agent mk p execTool enrich db agent sid sname msg ch =
      .error (e,
        { db with
          store := (get_or_create_conversation db.store agent.id sid sname ch).2 }) := by
  simp only [invoke_agent]
  rw [hg, hl]

theorem invoke_eq_loopOk {μ : Type} (mk : String → String → μ)
    (p : ProviderBehavior μ) (execTool : ToolCallRec → String)
    (enrich : String → String) (db : DBState) (agent : AgentRec) (sid : String)
    (sname : Option String) (msg ch : String) (k : ProviderKind) (t : String) (n : Nat)
    (hg : get_provider (providerNameOf agent) = .ok k)
    (hl : toolLoop p execTool MAX_ROUNDS
      (invokeInitialMsgs mk
        { db with store := (get_or_create_conversation db.store agent.id sid sname ch).2 }
        (get_or_create_conversation db.store agent.id sid sname ch).1.id
        (enrich msg)) = .ok (t, n)) :
    invoke_agent mk p execTool enrich db agent sid sname msg ch =
      .ok (t,
        { store := (get_or_create_conversation db.store agent.id sid sname ch).2,
          messages := db.messages ++
            [⟨(get_or_create_conversation db.store agent.id sid sname ch).1.id,
              "user", msg⟩,
             ⟨(get_or_create_conversation db.store agent.id sid sname ch).1.id,
              "assistant", t⟩] }) := by
  simp only [invoke_agent]
  rw [hg, hl]

theorem c10_message_persistence (μ : Type) (mk : String → String → μ)
    (p : ProviderBehavior μ) (execTool : ToolCallRec → String)
    (enrich : String → String) (db : DBState) (agent : AgentRec) (sid : String)
    (sname : Option String) (msg ch : String) :
    (∀ e db', invoke_agent mk p execTool enrich db agent sid sname msg ch =
        .error (e, db') → db'.messages = db.messages) ∧
    (∀ err, get_provider (providerNameOf agent) = .error err →
      invoke_agent mk p execTool enrich db agent sid sname msg ch =
        .ok ("[Configuration error: " ++ err ++ "]",
          { db with
            store := (get_or_create_conversation db.store agent.id sid sname ch).2 })) ∧
    (∀ k t n, get_provider (providerNameOf agent) = .ok k →
      toolLoop p execTool MAX_ROUNDS
        (invokeInitialMsgs mk
          { db with store := (get_or_create_conversation db.store agent.id sid sname ch).2 }
          (get_or_create_conversation db.store agent.id sid sname ch).1.id
          (enrich msg)) = .ok (t, n) →
      invoke_agent mk p execTool enrich db agent sid sname msg ch =
        .ok (t,
          { store := (get_or_create_conversation db.store agent.id sid sname ch).2,
            messages := db.messages ++
              [⟨(get_or_create_conversation db.store agent.id sid sname ch).1.id,
                "user", msg⟩,
               ⟨(get_or_create_conversation db.store agent.id sid sname ch).1.id,
                "assistant", t⟩] })) := by
  refine ⟨?_, ?_, ?_⟩
  · intro e db' h
    cases hg : get_provider (providerNameOf agent) with
    | error err =>
      rw [invoke_eq_configError mk p execTool enrich db agent sid sname msg ch err hg]
        at h
      exact absurd h (by simp)
    | ok k =>
      cases hl : toolLoop p execTool MAX_ROUNDS
          (invokeInitialMsgs mk
            { db with
              store := (get_or_create_conversation db.store agent.id sid sname ch).2 }
            (get_or_create_conversation db.store agent.id sid sname ch).1.id
            (enrich msg)) with
      | error e2 =>
        rw [invoke_eq_loopError mk p execTool enrich db agent sid sname msg ch k e2 hg
          hl] at h
        have h2 := (Prod.mk.injEq .. ▸ Except.error.inj h).2
        rw [← h2]
      | ok pr =>
        obtain ⟨t, n⟩ := pr
        rw [invoke_eq_loopOk mk p execTool enrich db agent sid sname msg ch k t n hg
          hl] at h
        exact absurd h (by simp)
  · intro err hg
    exact invoke_eq_configError mk p execTool enrich db agent sid sname msg ch err hg
  · intro k t n hg hl
    exact invoke_eq_loopOk mk p execTool enrich db agent sid sname msg ch k t n hg hl

/-- C10 witness: the persistence theorem applied to a failing provider
(no messages persisted), the `grok` configuration error (reply produced,
no messages persisted), and a normal completion (user message and reply
appended). -/
theorem c10_message_persistence_witness :
    (⟨⟨[⟨0, "a", "s", none, "whatsapp"⟩], 1⟩, []⟩ : DBState).messages =
      emptyDB.messages ∧
    invoke_agent unitMk (constProvider ⟨"hi", []⟩) noTool id emptyDB
      ⟨"a", "A", some "grok", "m", "", none⟩ "s" none "msg" "whatsapp" =
      .ok ("[Configuration error: " ++
        ("Unknown provider: '" ++ "grok" ++ "'. Use anthropic, openai, or google.") ++ "]",
        { emptyDB with
          store := (get_or_create_conversation emptyDB.store "a" "s" none "whatsapp").2 }) ∧
    invoke_agent unitMk (constProvider ⟨"hi", []⟩) noTool id emptyDB
      ⟨"a", "A", some "anthropic", "m", "", none⟩ "s" none "msg" "whatsapp" =
      .ok ("hi",
        { store := (get_or_create_conversation emptyDB.store "a" "s" none "whatsapp").2,
          messages := emptyDB.messages ++
            [⟨(get_or_create_conversation emptyDB.store "a" "s" none "whatsapp").1.id,
              "user", "msg"⟩,
             ⟨(get_or_create_conversation emptyDB.store "a" "s" none "whatsapp").1.id,
              "assistant", "hi"⟩] }) := by
  refine ⟨?_, ?_, ?_⟩
  · exact (c10_message_persistence Unit unitMk (failProvider "boom") noTool id emptyDB
      ⟨"a", "A", some "anthropic", "m", "", none⟩ "s" none "msg" "whatsapp").1
      "boom" ⟨⟨[⟨0, "a", "s", none, "whatsapp"⟩], 1⟩, []⟩ rfl
  · exact (c10_message_persistence Unit unitMk (constProvider ⟨"hi", []⟩) noTool id
      emptyDB ⟨"a", "A", some "grok", "m", "", none⟩ "s" none "msg" "whatsapp").2.1
      ("Unknown provider: '" ++ "grok" ++ "'. Use anthropic, openai, or google.") rfl
  · exact (c10_message_persistence Unit unitMk (constProvider ⟨"hi", []⟩) noTool id
      emptyDB ⟨"a", "A", some "anthropic", "m", "", none⟩ "s" none "msg"
      "whatsapp").2.2 ProviderKind.anthropic "hi" 1 rfl rfl

end WhatsupAgents
